import Mathlib

/-!
Verification of the DuckDB lakehouse backend of Sveltia CMS.

Shallow embedding of:
- `src/lib/services/backends/duckdb/credentials.js` (presigned-URL cache),
- `src/lib/services/backends/duckdb/repository.js` (storage path composition),
- `src/lib/services/backends/duckdb/queries/assets.js` (asset CRUD decisions),
- `src/lib/services/backends/duckdb/queries/schema.js` (schema existence probe),
- the DuckDB engine lifecycle module (`closeDuckDB`),
- `src/lib/services/backends/duckdb/commits.js` (commit hash computation).

JavaScript module-level state becomes explicit state records passed to and
returned from each operation; network responses become explicit `FetchReply`
arguments; `Date.now()` becomes explicit time parameters (one per call site of
`Date.now()` in the source); fallible paths return `Except`.
-/

namespace SveltiaDuckDB

/-! ### Credentials module state (credentials.js)

Module-level mutable state of credentials.js: `config` (proxyUrl, provider),
`sessionToken`, and `cache` (`urls` record keyed by path, plus a single shared
`expiry` timestamp in milliseconds). A JS record with string keys is embedded
as an association list with unique keys; spread-merge preserves the first
occurrence position and overrides its value. -/

structure CredState where
  proxyUrl : Option String
  provider : Option String
  sessionToken : Option String
  cacheUrls : List (String × String)
  cacheExpiry : Nat
  deriving DecidableEq, Repr

/-- Errors thrown by credentials.js operations. -/
inductive CredError where
  /-- Thrown as: Valid file path is required. -/
  | invalidPath
  /-- Thrown as: Valid array of paths is required. -/
  | invalidPaths
  /-- Thrown as: No valid paths provided. -/
  | noValidPaths
  /-- Thrown as: Credential proxy not configured. Call configureProxy() first. -/
  | notConfigured
  /-- Thrown as: Not authenticated. Call setSessionToken() first. -/
  | notAuthenticated
  /-- Thrown as: Authentication failed (HTTP 401/403). -/
  | authFailed (errorText : String)
  /-- Thrown as: Credential proxy request failed (status). -/
  | proxyFailed (status : Nat) (errorText : String)
  /-- fetch itself rejected (network failure) -/
  | netFailure (msg : String)
  deriving DecidableEq, Repr

/-- A response of the credential proxy to one `fetch`, as observed by
`proxyRequest`: either an HTTP response (with status, error text used when
not ok, and decoded JSON payload used when ok), or a network failure. -/
inductive FetchReply (α : Type) where
  | response (status : Nat) (errorText : String) (json : α)
  | networkFailure (msg : String)
  deriving DecidableEq, Repr

/-- Response payload of the single-URL presign endpoint. -/
structure PresignResponse where
  url : String
  expiresIn : Nat
  deriving DecidableEq, Repr

/-- Response payload of the batch presign endpoint. -/
structure PresignBatchResponse where
  urls : List (String × String)
  expiresIn : Nat
  deriving DecidableEq, Repr

/-- JS object property read `m[k]`: first binding of key `k`, if any. -/
def lookupUrl (k : String) : List (String × String) → Option String
  | [] => none
  | (k2, v) :: rest => if k2 = k then some v else lookupUrl k rest

/-- Set key `k` to `v` in a JS-record embedding: override the existing binding
in place, else append a new binding (JS spread-merge key behaviour). -/
def setKey (m : List (String × String)) (k v : String) : List (String × String) :=
  if m.any (fun p => p.1 = k) then
    m.map (fun p => if p.1 = k then (k, v) else p)
  else m ++ [(k, v)]

/-- Spread merge of two string-keyed records: keys of the second override. -/
def mergeUrls (old new : List (String × String)) : List (String × String) :=
  new.foldl (fun m p => setKey m p.1 p.2) old

/-- credentials.js `clearCredentials()`: wipes token and URL cache; the proxy
configuration is left as is. -/
def clearCredentials (s : CredState) : CredState :=
  { s with sessionToken := none, cacheUrls := [], cacheExpiry := 0 }

/-- credentials.js `REFRESH_BUFFER_MS = 60 * 1000`. -/
def REFRESH_BUFFER_MS : Nat := 60 * 1000

/-- credentials.js `isCacheValid()`: `cache.expiry > now + REFRESH_BUFFER_MS`,
with `now` the value of `Date.now()` at the check. -/
def isCacheValid (s : CredState) (now : Nat) : Bool :=
  decide (s.cacheExpiry > now + REFRESH_BUFFER_MS)

/-- credentials.js `updateCache(urls, expiresIn)`: merge the new URLs into the
cached record and overwrite the single shared expiry with
`now + expiresIn * 1000`, `now` being `Date.now()` at update time. -/
def updateCache (s : CredState) (urls : List (String × String)) (expiresIn : Nat)
    (now : Nat) : CredState :=
  { s with cacheUrls := mergeUrls s.cacheUrls urls,
           cacheExpiry := now + expiresIn * 1000 }

instance instDecEqExcept {ε α : Type} [DecidableEq ε] [DecidableEq α] :
    DecidableEq (Except ε α) := fun a b =>
  match a, b with
  | .error e1, .error e2 =>
    if h : e1 = e2 then .isTrue (by rw [h]) else .isFalse (by simp [h])
  | .error _, .ok _ => .isFalse (by simp)
  | .ok _, .error _ => .isFalse (by simp)
  | .ok v1, .ok v2 =>
    if h : v1 = v2 then .isTrue (by rw [h]) else .isFalse (by simp [h])

/-- Outcome of a call into the credentials module: the post-call module state,
the returned value or thrown error, and how many network requests (`fetch`
calls to the proxy) the call performed. -/
structure CredOutcome (α : Type) where
  state : CredState
  result : Except CredError α
  fetches : Nat
  deriving DecidableEq, Repr

/-- credentials.js `proxyRequest(endpoint, body)`: guards (configured,
authenticated), then one `fetch`; a non-ok response with status 401/403 clears
all credentials before throwing; other non-ok statuses throw without clearing;
ok responses return the decoded JSON. -/
def proxyRequest (s : CredState) (reply : FetchReply α) : CredOutcome α :=
  match s.proxyUrl with
  | none => ⟨s, .error .notConfigured, 0⟩
  | some _ =>
    match s.sessionToken with
    | none => ⟨s, .error .notAuthenticated, 0⟩
    | some _ =>
      match reply with
      | .response status errorText json =>
        if 200 ≤ status ∧ status < 300 then
          ⟨s, .ok json, 1⟩
        else if status = 401 ∨ status = 403 then
          ⟨clearCredentials s, .error (.authFailed errorText), 1⟩
        else
          ⟨s, .error (.proxyFailed status errorText), 1⟩
      | .networkFailure msg => ⟨s, .error (.netFailure msg), 1⟩

/-- The cache-hit test of `getPresignedUrl` for a GET:
`isCacheValid() && cache.urls[path]` (the looked-up URL must be truthy,
i.e. present and non-empty); returns the hit URL. -/
def cacheHit (s : CredState) (tReq : Nat) (path : String) : Option String :=
  if isCacheValid s tReq then
    match lookupUrl path s.cacheUrls with
    | some u => if u = "" then none else some u
    | none => none
  else none

/-- credentials.js `getPresignedUrl(path, operation, contentType)`.
`tReq` is `Date.now()` inside `isCacheValid`, `tResp` is `Date.now()` inside
`updateCache` after the response arrived; `reply` is the proxy's reply to the
`/presign` request, should one be made. The `contentType` argument only feeds
the request body and is omitted. GET results are cached; PUT and DELETE
results are returned without touching the cache. -/
def getPresignedUrl (s : CredState) (tReq tResp : Nat) (path operation : String)
    (reply : FetchReply PresignResponse) : CredOutcome String :=
  if path = "" then ⟨s, .error .invalidPath, 0⟩
  else
    match (if operation = "GET" then cacheHit s tReq path else none) with
    | some u => ⟨s, .ok u, 0⟩
    | none =>
      let pr := proxyRequest s reply
      match pr.result with
      | .error e => ⟨pr.state, .error e, pr.fetches⟩
      | .ok resp =>
        if operation = "GET" then
          ⟨updateCache pr.state [(path, resp.url)] resp.expiresIn tResp,
            .ok resp.url, pr.fetches⟩
        else ⟨pr.state, .ok resp.url, pr.fetches⟩

/-- Truthiness of `cache.urls[p]` (present and non-empty). -/
def truthyUrl (s : CredState) (p : String) : Bool :=
  match lookupUrl p s.cacheUrls with
  | some u => decide (u ≠ "")
  | none => false

/-- credentials.js `fetchPresignedUrls(paths)`: batch GET presigning.
Validates the path list, serves fully-cached requests from the cache with no
network call, otherwise requests the missing paths and merges the response
into the cache. -/
def fetchPresignedUrls (s : CredState) (tReq tResp : Nat) (paths : List String)
    (reply : FetchReply PresignBatchResponse) :
    CredOutcome (List (String × String)) :=
  if paths.length = 0 then ⟨s, .error .invalidPaths, 0⟩
  else
    let validPaths := paths.filter (fun p => p ≠ "")
    if validPaths.length = 0 then ⟨s, .error .noValidPaths, 0⟩
    else
      let pathsToFetch :=
        if isCacheValid s tReq then validPaths.filter (fun p => ¬ truthyUrl s p)
        else validPaths
      if pathsToFetch.length = 0 then
        ⟨s, .ok (validPaths.map (fun p => (p, (lookupUrl p s.cacheUrls).getD ""))), 0⟩
      else
        let pr := proxyRequest s reply
        match pr.result with
        | .error e => ⟨pr.state, .error e, pr.fetches⟩
        | .ok resp =>
          let s2 := updateCache pr.state resp.urls resp.expiresIn tResp
          ⟨s2, .ok (validPaths.map (fun p => (p, (lookupUrl p s2.cacheUrls).getD ""))),
            pr.fetches⟩

/-- credentials.js `getCacheState()`: size is the number of cached keys,
`expiresIn = Math.max(0, Math.floor((cache.expiry - now) / 1000))` (Nat
subtraction already truncates at zero). -/
structure CacheState where
  size : Nat
  expiry : Nat
  expiresIn : Nat
  deriving DecidableEq, Repr

/-- credentials.js `getCacheState()`. -/
def getCacheState (s : CredState) (now : Nat) : CacheState :=
  { size := s.cacheUrls.length,
    expiry := s.cacheExpiry,
    expiresIn := (s.cacheExpiry - now) / 1000 }

/-! ### Storage path composition (repository.js) -/

/-- Embeds the regex replace collapsing every run of slashes to one slash. -/
def collapseSlashes (s : List Char) : List Char :=
  s.foldr (fun c acc =>
    if c = '/' ∧ acc.head? = some '/' then acc else c :: acc) []

/-- repository.js `getFullStoragePath(relativePath)`:
`[pathPrefix, dataPath, relativePath].filter(Boolean).join('/')` with runs of
slashes collapsed. The bucket is deliberately NOT part of the result (it is
added by the presigner). The source reads `pathPrefix` and `dataPath` from the
module-level `repository` record; they are explicit arguments here (`pfx` is
the source's `pathPrefix`). -/
def getFullStoragePath (pfx dataPath relativePath : String) : String :=
  let parts := [pfx, dataPath, relativePath].filter (fun p => p ≠ "")
  ⟨collapseSlashes (String.intercalate "/" parts).toList⟩

/-! ### Asset store (queries/assets.js) -/

/-- queries/assets.js `DEFAULT_INLINE_THRESHOLD` (5 MB). -/
def DEFAULT_INLINE_THRESHOLD : Nat := 5 * 1024 * 1024

/-- The fields of a Sveltia `Asset` value read by `insertAsset`. `blobURL` may
be absent in JS; absence and the empty string are both falsy for
`asset.blobURL || asset.path`, so it is embedded as a `String` with `""` for
absent. -/
structure Asset where
  sha : String
  path : String
  name : String
  kind : String
  blobURL : String
  size : Nat
  deriving DecidableEq, Repr

/-- One row of `cms.assets` as written by `insertAsset` (timestamp columns,
which are always `CURRENT_TIMESTAMP` at insert, are omitted). Bytes are
`List Nat` (each < 256 in practice). -/
structure AssetRow where
  id : String
  path : String
  filename : String
  mimeType : String
  size : Nat
  kind : String
  content : Option (List Nat)
  sha : String
  storageMode : String
  storageUrl : Option String
  deriving DecidableEq, Repr

/-- queries/assets.js `insertAsset(conn, asset, content, threshold)`: decides
between inline and external storage once, at insert time:
`useInline = assetMode === 'inline' && content && content.length <= threshold`
(a `Uint8Array` is truthy whenever present). Inline stores the bytes with a
NULL storage URL; otherwise a NULL content column and
`storageUrl = asset.blobURL || asset.path`. `assetMode` is read from the
module-level `repository` record; `mimeOf` stands for the source's
`getMimeTypeFromPath` helper (its table does not affect the storage
decision). -/
def insertAsset (assetMode : String) (mimeOf : String → String) (asset : Asset)
    (content : Option (List Nat)) (threshold : Nat) : AssetRow :=
  let useInline : Bool :=
    decide (assetMode = "inline") &&
      match content with
      | some c => decide (c.length ≤ threshold)
      | none => false
  if useInline then
    { id := asset.sha, path := asset.path, filename := asset.name,
      mimeType := mimeOf asset.path,
      size := (content.getD []).length, kind := asset.kind,
      content := content, sha := asset.sha,
      storageMode := "inline", storageUrl := none }
  else
    { id := asset.sha, path := asset.path, filename := asset.name,
      mimeType := mimeOf asset.path,
      size := asset.size, kind := asset.kind,
      content := none, sha := asset.sha,
      storageMode := "external",
      storageUrl := some (if asset.blobURL ≠ "" then asset.blobURL else asset.path) }

/-- The fields of the `updates` argument of `updateAsset`. `name`, `path` and
`blobURL` are truthiness-tested in the source, so `""` stands for absent;
`size` is tested with `!== undefined`, so it is an `Option` (0 counts as
supplied). -/
structure AssetUpdates where
  name : String
  path : String
  size : Option Nat
  blobURL : String
  deriving DecidableEq, Repr

/-- One SQL SET clause pushed onto `setClauses` by `updateAsset`, in source
order; each constructor is one of the literal strings pushed there. -/
inductive SetClause where
  /-- Clause setting the filename column. -/
  | filename (v : String)
  /-- Clause setting the path column. -/
  | path (v : String)
  /-- Clause setting the size column. -/
  | size (n : Nat)
  /-- Clause setting content from the bound BLOB parameter. -/
  | contentParam
  /-- Clause setting storage_mode to inline. -/
  | storageModeInline
  /-- Clause clearing storage_url to NULL. -/
  | storageUrlNull
  /-- Clause setting the storage_url column. -/
  | storageUrl (v : String)
  /-- Clause setting storage_mode to external. -/
  | storageModeExternal
  /-- Clause clearing content to NULL. -/
  | contentNull
  /-- Clause setting updated_at to CURRENT_TIMESTAMP. -/
  | updatedAtNow
  deriving DecidableEq, Repr

/-- queries/assets.js `updateAsset(conn, id, updates, content)`: builds the
SET clause list exactly as the source pushes clauses, and returns `none` when
no UPDATE query is issued (the source's `if (setClauses.length === 0) return`)
or `some (setClauses, params)` for the issued query. Note the source pushes
`updated_at = CURRENT_TIMESTAMP` BEFORE that length test. -/
def updateAsset (updates : AssetUpdates) (content : Option (List Nat)) :
    Option (List SetClause × List (List Nat)) :=
  let c1 : List SetClause :=
    if updates.name ≠ "" then [.filename updates.name] else []
  let c2 : List SetClause :=
    if updates.path ≠ "" then [.path updates.path] else []
  let c3 : List SetClause :=
    match updates.size with
    | some n => [.size n]
    | none => []
  let c4 : List SetClause :=
    match content with
    | some _ => [.contentParam, .storageModeInline, .storageUrlNull]
    | none =>
      if updates.blobURL ≠ "" then
        [.storageUrl updates.blobURL, .storageModeExternal, .contentNull]
      else []
  let params : List (List Nat) :=
    match content with
    | some c => [c]
    | none => []
  let setClauses := c1 ++ c2 ++ c3 ++ c4 ++ [.updatedAtNow]
  if setClauses.length = 0 then none
  else some (setClauses, params)

/-! ### Schema existence probe (queries/schema.js) -/

/-- The observable behaviour of a connection against the two
`information_schema` probes of `schemaExists`: the catalog contents (schema
names, and (schema, table) pairs — unique in a real catalog), plus whether
each of the two queries fails. -/
structure Catalog where
  schemata : List String
  tables : List (String × String)
  failSchemata : Bool
  failTables : Bool
  deriving DecidableEq, Repr

/-- queries/schema.js `schemaExists(conn)`: runs the two information_schema
queries inside one try/catch; any query failure yields `false`; otherwise
requires the `cms` schema row and exactly the two table rows `entries` and
`assets` under schema `cms` (`tableRows.length === 2`). -/
def schemaExists (c : Catalog) : Bool :=
  if c.failSchemata then false
  else
    let schemaRows := c.schemata.filter (fun n => n = "cms")
    if schemaRows.length = 0 then false
    else if c.failTables then false
    else
      let tableRows := c.tables.filter (fun t =>
        t.1 = "cms" ∧ (t.2 = "entries" ∨ t.2 = "assets"))
      decide (tableRows.length = 2)

/-! ### Engine lifecycle teardown (init module: `closeDuckDB`)

Module-level state of the init module: `db`, `conn`, `worker` (each embedded
as a `Bool`, `true` for "not null"), `isInitializing` and `extensionsLoaded`. -/

structure EngineState where
  db : Bool
  conn : Bool
  worker : Bool
  isInitializing : Bool
  extensionsLoaded : Bool
  deriving DecidableEq, Repr

/-- Whether each teardown call would throw; `closeDuckDB` catches each one
and only logs, so these flags influence nothing but the error log. -/
structure CloseEnv where
  connCloseFails : Bool
  dbTerminateFails : Bool
  workerTerminateFails : Bool
  deriving DecidableEq, Repr

/-- One teardown operation attempted by `closeDuckDB`. -/
inductive TeardownStep where
  | closeConn
  | terminateDb
  | terminateWorker
  deriving DecidableEq, Repr

/-- Result of `closeDuckDB`: the post-call module state, the teardown
operations that were attempted, and the caught-and-logged errors. -/
structure CloseOutcome where
  state : EngineState
  steps : List TeardownStep
  errors : List String
  deriving DecidableEq, Repr

/-- init module `closeDuckDB()`: for each of connection, database and worker
in turn, if the reference is set, attempt its teardown inside its own
try/catch (a failure is logged and swallowed) and unset the reference; then
reset `extensionsLoaded`. `isInitializing` is not touched. Never throws. -/
def closeDuckDB (s : EngineState) (env : CloseEnv) : CloseOutcome :=
  let steps1 := if s.conn then [TeardownStep.closeConn] else []
  let errs1 := if s.conn ∧ env.connCloseFails then ["Error closing connection"] else []
  let s1 := { s with conn := false }
  let steps2 := if s1.db then [TeardownStep.terminateDb] else []
  let errs2 := if s1.db ∧ env.dbTerminateFails then ["Error terminating database"] else []
  let s2 := { s1 with db := false }
  let steps3 := if s2.worker then [TeardownStep.terminateWorker] else []
  let errs3 := if s2.worker ∧ env.workerTerminateFails then ["Error terminating worker"] else []
  let s3 := { s2 with worker := false }
  { state := { s3 with extensionsLoaded := false },
    steps := steps1 ++ steps2 ++ steps3,
    errors := errs1 ++ errs2 ++ errs3 }

/-- init module `isDuckDBReady()`: `db !== null && !isInitializing`. -/
def isDuckDBReady (s : EngineState) : Bool := s.db ∧ ¬ s.isInitializing

/-- init module `hasActiveConnection()`: `conn !== null`. -/
def hasActiveConnection (s : EngineState) : Bool := s.conn

/-! ### Commit hash (commits.js)

`generateSha` delegates to the platform primitive
`crypto.subtle.digest('SHA-256', content)`; that primitive is FIPS 180-4
SHA-256, embedded below over byte lists (`List Nat`, each byte < 256). -/

/-- Truncate to a 32-bit word. -/
def w32 (x : Nat) : Nat := x % 4294967296

/-- Rotation of a 32-bit word right by `n` bits (for `n < 32`). -/
def rotr32 (n x : Nat) : Nat := w32 (x / 2 ^ n + x % 2 ^ n * 2 ^ (32 - n))

/-- SHA-256 Ch. -/
def shaCh (x y z : Nat) : Nat := (x &&& y) ^^^ ((x ^^^ 4294967295) &&& z)

/-- SHA-256 Maj. -/
def shaMaj (x y z : Nat) : Nat := (x &&& y) ^^^ (x &&& z) ^^^ (y &&& z)

/-- SHA-256 Σ₀. -/
def sumWord0 (x : Nat) : Nat := rotr32 2 x ^^^ rotr32 13 x ^^^ rotr32 22 x

/-- SHA-256 Σ₁. -/
def sumWord1 (x : Nat) : Nat := rotr32 6 x ^^^ rotr32 11 x ^^^ rotr32 25 x

/-- SHA-256 σ₀. -/
def smallWord0 (x : Nat) : Nat := rotr32 7 x ^^^ rotr32 18 x ^^^ x / 8

/-- SHA-256 σ₁. -/
def smallWord1 (x : Nat) : Nat := rotr32 17 x ^^^ rotr32 19 x ^^^ x / 1024

/-- SHA-256 round constants (FIPS 180-4, written in decimal). -/
def K256 : List Nat :=
  [1116352408, 1899447441, 3049323471, 3921009573, 961987163,
   1508970993, 2453635748, 2870763221, 3624381080, 310598401,
   607225278, 1426881987, 1925078388, 2162078206, 2614888103,
   3248222580, 3835390401, 4022224774, 264347078, 604807628,
   770255983, 1249150122, 1555081692, 1996064986, 2554220882,
   2821834349, 2952996808, 3210313671, 3336571891, 3584528711,
   113926993, 338241895, 666307205, 773529912, 1294757372,
   1396182291, 1695183700, 1986661051, 2177026350, 2456956037,
   2730485921, 2820302411, 3259730800, 3345764771, 3516065817,
   3600352804, 4094571909, 275423344, 430227734, 506948616,
   659060556, 883997877, 958139571, 1322822218, 1537002063,
   1747873779, 1955562222, 2024104815, 2227730452, 2361852424,
   2428436474, 2756734187, 3204031479, 3329325298]

/-- SHA-256 initial hash value (FIPS 180-4, written in decimal). -/
def H256 : List Nat :=
  [1779033703, 3144134277, 1013904242, 2773480762,
   1359893119, 2600822924, 528734635, 1541459225]

/-- Big-endian rendering of `x` as `n` bytes. -/
def bytesBE : Nat → Nat → List Nat
  | 0, _ => []
  | n + 1, x => bytesBE n (x / 256) ++ [x % 256]

/-- SHA-256 message padding: append `0x80`, zeros to 56 mod 64, then the
bit length as 8 big-endian bytes. -/
def padMessage (msg : List Nat) : List Nat :=
  msg ++ [128] ++ List.replicate ((119 - msg.length % 64) % 64) 0 ++
    bytesBE 8 (8 * msg.length)

/-- Split a byte list into 64-byte blocks. -/
def toBlocks (l : List Nat) : List (List Nat) :=
  if h : l = [] then []
  else l.take 64 :: toBlocks (l.drop 64)
termination_by l.length
decreasing_by
  have hpos : 0 < l.length := List.length_pos.mpr h
  simp only [List.length_drop]
  omega

/-- Word `i` of a 64-byte block, big-endian. -/
def word32At (block : List Nat) (i : Nat) : Nat :=
  block.getD (4 * i) 0 * 16777216 + block.getD (4 * i + 1) 0 * 65536 +
    block.getD (4 * i + 2) 0 * 256 + block.getD (4 * i + 3) 0

/-- Extend the 16 message words to the 64-word schedule. -/
def buildSchedule (w16 : List Nat) : List Nat :=
  (List.range 48).foldl
    (fun ws _ =>
      let g := fun k => ws.getD (ws.length - k) 0
      ws ++ [w32 (smallWord1 (g 2) + g 7 + smallWord0 (g 15) + g 16)])
    w16

/-- One SHA-256 compression round on the 8-word state, given `(kᵢ, wᵢ)`. -/
def roundStep (st : List Nat) (kw : Nat × Nat) : List Nat :=
  let a := st.getD 0 0
  let b := st.getD 1 0
  let c := st.getD 2 0
  let d := st.getD 3 0
  let e := st.getD 4 0
  let f := st.getD 5 0
  let g := st.getD 6 0
  let h := st.getD 7 0
  let t1 := w32 (h + sumWord1 e + shaCh e f g + kw.1 + kw.2)
  let t2 := w32 (sumWord0 a + shaMaj a b c)
  [w32 (t1 + t2), a, b, c, w32 (d + t1), e, f, g]

/-- Process one 64-byte block. -/
def compressBlock (h0 : List Nat) (block : List Nat) : List Nat :=
  let w16 := (List.range 16).map (word32At block)
  let ws := buildSchedule w16
  let st := (K256.zip ws).foldl roundStep h0
  (h0.zip st).map (fun p => w32 (p.1 + p.2))

/-- SHA-256 digest of a byte list, as the 32 digest bytes. Embeds the platform
primitive `crypto.subtle.digest('SHA-256', content)` used by `generateSha`. -/
def sha256 (msg : List Nat) : List Nat :=
  (((toBlocks (padMessage msg)).foldl compressBlock H256).map (bytesBE 4)).join

/-- Lower-case hex digit. -/
def hexDigit (n : Nat) : Char :=
  if n < 10 then Char.ofNat (48 + n) else Char.ofNat (87 + n)

/-- commits.js `generateSha(content)`: SHA-256 digest, each byte rendered as
two lower-case hex digits (`padStart(2, '0')`), truncated to the first 40
characters. -/
def generateSha (content : List Nat) : String :=
  ⟨(((sha256 content).map (fun b => [hexDigit (b / 16), hexDigit (b % 16)])).join).take 40⟩

/-- The fields of one `FileChange` read by the result-building tail of
`commitChanges`: its `path` and the optional `entry.sha` / `asset.sha`. -/
structure FileChangeMeta where
  path : String
  entrySha : Option String
  assetSha : Option String
  deriving DecidableEq, Repr

/-- JS `a || b` on strings (empty string is falsy). -/
def jsOr (a b : String) : String := if a ≠ "" then a else b

/-- Commit result: the commit SHA and the per-path SHA map (the commit date
is omitted). -/
structure CommitResults where
  sha : String
  files : List (String × String)
  deriving DecidableEq, Repr

/-- commits.js `commitChanges`, lines 396-416: after both tables were exported
to Parquet buffers, the combined content is the entries bytes followed by the
assets bytes (`combinedContent.set(entriesParquet, 0);
combinedContent.set(assetsParquet, entriesParquet.length)`), the commit SHA is
`generateSha` of that concatenation, and each changed path maps to
`change.entry?.sha || change.asset?.sha || sha`. -/
def buildCommitResult (changes : List FileChangeMeta)
    (entriesParquet assetsParquet : List Nat) : CommitResults :=
  let combinedContent := entriesParquet ++ assetsParquet
  let sha := generateSha combinedContent
  { sha := sha,
    files := changes.map (fun c =>
      (c.path, jsOr (c.entrySha.getD "") (jsOr (c.assetSha.getD "") sha))) }

/-! ### Association-list helper lemmas -/

lemma lookupUrl_append (k : String) (m1 m2 : List (String × String)) :
    lookupUrl k (m1 ++ m2) =
      match lookupUrl k m1 with
      | some v => some v
      | none => lookupUrl k m2 := by
  induction m1 with
  | nil => simp [lookupUrl]
  | cons p rest ih =>
    obtain ⟨k2, v⟩ := p
    by_cases hp : k2 = k
    · simp [lookupUrl, hp]
    · simpa [lookupUrl, hp] using ih

@[simp] lemma lookupUrl_nil (k : String) : lookupUrl k [] = none := rfl

@[simp] lemma lookupUrl_cons (k k2 v : String) (rest : List (String × String)) :
    lookupUrl k ((k2, v) :: rest) =
      if k2 = k then some v else lookupUrl k rest := rfl

lemma lookupUrl_map_setfn (m : List (String × String)) (k k2 v : String)
    (h : k ≠ k2) :
    lookupUrl k (m.map (fun p => if p.1 = k2 then (k2, v) else p)) =
      lookupUrl k m := by
  induction m with
  | nil => rfl
  | cons p rest ih =>
    obtain ⟨k3, v3⟩ := p
    by_cases h3 : k3 = k2
    · subst h3
      have hk3 : ¬ k3 = k := fun hh => h hh.symm
      simp [hk3, ih]
    · by_cases hk : k3 = k <;> simp [h3, hk, ih, h]

lemma lookupUrl_setKey_self (m : List (String × String)) (k v : String) :
    lookupUrl k (setKey m k v) = some v := by
  unfold setKey
  by_cases hany : m.any (fun p => decide (p.1 = k))
  · rw [if_pos hany]
    induction m with
    | nil => simp at hany
    | cons p rest ih =>
      obtain ⟨k2, v2⟩ := p
      by_cases h2 : k2 = k
      · subst h2
        simp
      · simp only [List.any_cons] at hany
        have hrest : rest.any (fun p => decide (p.1 = k)) := by
          simpa [h2] using hany
        simpa [h2] using ih hrest
  · have hnone : lookupUrl k m = none := by
      induction m with
      | nil => rfl
      | cons p rest ih =>
        obtain ⟨k2, v2⟩ := p
        simp only [List.any_cons, Bool.or_eq_true, decide_eq_true_eq, not_or] at hany
        simp only [lookupUrl_cons, hany.1, if_false]
        exact ih (by simpa using hany.2)
    rw [if_neg hany, lookupUrl_append, hnone]
    simp

lemma lookupUrl_setKey_other (m : List (String × String)) (k k2 v : String)
    (h : k ≠ k2) : lookupUrl k (setKey m k2 v) = lookupUrl k m := by
  unfold setKey
  by_cases hany : m.any (fun p => decide (p.1 = k2))
  · rw [if_pos hany]
    exact lookupUrl_map_setfn m k k2 v h
  · rw [if_neg hany, lookupUrl_append]
    cases hm : lookupUrl k m with
    | some v2 => rfl
    | none => simp [Ne.symm h]

/-! ### Behaviour lemmas for the credentials module -/

lemma proxyRequest_ok {α : Type} (s : CredState) (pu tk errText : String)
    (json : α) (hpu : s.proxyUrl = some pu) (htk : s.sessionToken = some tk) :
    proxyRequest s (.response 200 errText json) = ⟨s, .ok json, 1⟩ := by
  unfold proxyRequest
  rw [hpu, htk]
  norm_num

lemma proxyRequest_auth_denied {α : Type} (s : CredState)
    (pu tk errText : String) (st : Nat) (json : α)
    (hpu : s.proxyUrl = some pu) (htk : s.sessionToken = some tk)
    (hst : st = 401 ∨ st = 403) :
    proxyRequest s (.response st errText json) =
      ⟨clearCredentials s, .error (.authFailed errText), 1⟩ := by
  have hnotok : ¬ (200 ≤ st ∧ st < 300) := by rcases hst with h | h <;> omega
  unfold proxyRequest
  rw [hpu, htk]
  simp only [if_neg hnotok, if_pos hst]

lemma cacheHit_none_of_lookup_none (s : CredState) (t : Nat) (path : String)
    (h : lookupUrl path s.cacheUrls = none) : cacheHit s t path = none := by
  unfold cacheHit
  rw [h]
  split <;> rfl

lemma getPresignedUrl_get_miss (s : CredState) (pu tk : String) (t t2 : Nat)
    (path url errText : String) (eps : Nat)
    (hpu : s.proxyUrl = some pu) (htk : s.sessionToken = some tk)
    (hpath : path ≠ "") (hmiss : cacheHit s t path = none) :
    getPresignedUrl s t t2 path "GET" (.response 200 errText ⟨url, eps⟩) =
      ⟨{ s with cacheUrls := setKey s.cacheUrls path url,
                cacheExpiry := t2 + eps * 1000 },
       .ok url, 1⟩ := by
  unfold getPresignedUrl
  rw [if_neg hpath,
    show (if ("GET" : String) = "GET" then cacheHit s t path else none) =
      cacheHit s t path from if_pos rfl,
    hmiss]
  dsimp only
  rw [proxyRequest_ok s pu tk errText (PresignResponse.mk url eps) hpu htk]
  simp [updateCache, mergeUrls, setKey]

lemma getPresignedUrl_get_hit (s : CredState) (t t2 : Nat) (path u : String)
    (reply : FetchReply PresignResponse)
    (hvalid : isCacheValid s t = true)
    (hlook : lookupUrl path s.cacheUrls = some u) (hu : u ≠ "")
    (hpath : path ≠ "") :
    getPresignedUrl s t t2 path "GET" reply = ⟨s, .ok u, 0⟩ := by
  have hhit : cacheHit s t path = some u := by
    unfold cacheHit
    rw [if_pos hvalid, hlook]
    dsimp only
    rw [if_neg hu]
  unfold getPresignedUrl
  rw [if_neg hpath,
    show (if ("GET" : String) = "GET" then cacheHit s t path else none) =
      cacheHit s t path from if_pos rfl,
    hhit]

lemma getPresignedUrl_write_op (s : CredState) (pu tk : String) (t t2 : Nat)
    (path op url errText : String) (eps : Nat)
    (hpu : s.proxyUrl = some pu) (htk : s.sessionToken = some tk)
    (hpath : path ≠ "") (hop : op ≠ "GET") :
    getPresignedUrl s t t2 path op (.response 200 errText ⟨url, eps⟩) =
      ⟨s, .ok url, 1⟩ := by
  unfold getPresignedUrl
  rw [if_neg hpath,
    show (if op = "GET" then cacheHit s t path else none) = none from if_neg hop]
  dsimp only
  rw [proxyRequest_ok s pu tk errText (PresignResponse.mk url eps) hpu htk]
  simp [hop]

lemma getPresignedUrl_auth_denied (s : CredState) (pu tk : String) (t t2 : Nat)
    (path op errText : String) (st : Nat) (dummy : PresignResponse)
    (hpu : s.proxyUrl = some pu) (htk : s.sessionToken = some tk)
    (hpath : path ≠ "")
    (hmiss : (if op = "GET" then cacheHit s t path else none) = none)
    (hst : st = 401 ∨ st = 403) :
    getPresignedUrl s t t2 path op (.response st errText dummy) =
      ⟨clearCredentials s, .error (.authFailed errText), 1⟩ := by
  unfold getPresignedUrl
  rw [if_neg hpath, hmiss,
    proxyRequest_auth_denied s pu tk errText st dummy hpu htk hst]

lemma fetchPresignedUrls_auth_denied (s : CredState) (pu tk : String)
    (t t2 : Nat) (paths : List String) (errText : String) (st : Nat)
    (dummy : PresignBatchResponse)
    (hpu : s.proxyUrl = some pu) (htk : s.sessionToken = some tk)
    (hne : paths.length ≠ 0)
    (hvp : (paths.filter (fun p => p ≠ "")).length ≠ 0)
    (hfetch : (if isCacheValid s t then
        (paths.filter (fun p => p ≠ "")).filter (fun p => ¬ truthyUrl s p)
      else paths.filter (fun p => p ≠ "")).length ≠ 0)
    (hst : st = 401 ∨ st = 403) :
    fetchPresignedUrls s t t2 paths (.response st errText dummy) =
      ⟨clearCredentials s, .error (.authFailed errText), 1⟩ := by
  unfold fetchPresignedUrls
  rw [if_neg hne]
  simp only [if_neg hvp, if_neg hfetch,
    proxyRequest_auth_denied s pu tk errText st dummy hpu htk hst]

/-! ### Claim theorems: storage paths, assets, engine teardown, commit hash -/

/-- C7 counterexample: with bucket `my-bucket`, dataPath `cms/data` and empty
pathPrefix, `getFullStoragePath('entries/blog.json')` does NOT return the
bucket-prefixed path `my-bucket/cms/data/entries/blog.json` — the source
deliberately excludes the bucket (it is added by the presigner). -/
theorem getFullStoragePath_bucket_refuted :
    getFullStoragePath "" "cms/data" "entries/blog.json" ≠
      "my-bucket/cms/data/entries/blog.json" := by decide

/-- C7 (amended): with dataPath `cms/data` and empty pathPrefix,
`getFullStoragePath('entries/blog.json')` returns
`cms/data/entries/blog.json` — the bucket-free storage path, with no
leading, trailing or doubled separator artifact from the empty prefix. -/
theorem getFullStoragePath_no_bucket_example :
    getFullStoragePath "" "cms/data" "entries/blog.json" =
      "cms/data/entries/blog.json" := by decide

/-- C3 counterexample: with asset mode `inline` and content strictly longer
than the threshold, `insertAsset` does NOT store the content inline — it
records an external row with no inline bytes (the mode does not force inline
storage; the threshold always wins). -/
theorem insertAsset_mode_inline_over_threshold_refuted :
    (insertAsset "inline" (fun _ => "application/octet-stream")
        ⟨"abc", "img.png", "img.png", "image", "", 2⟩ (some [0, 0]) 1).storageMode
      = "external" ∧
    (insertAsset "inline" (fun _ => "application/octet-stream")
        ⟨"abc", "img.png", "img.png", "image", "", 2⟩ (some [0, 0]) 1).content
      = none := by
  exact ⟨rfl, rfl⟩

/-- C3 (amended): for every asset insert with supplied content strictly over
the threshold — whatever the configured asset mode, in particular both
`inline` and `external` — no inline bytes are stored: the row is external,
the content column is NULL and a storage URL (`asset.blobURL || asset.path`)
is recorded. -/
theorem insertAsset_over_threshold_external (assetMode : String)
    (mimeOf : String → String) (asset : Asset) (c : List Nat) (threshold : Nat)
    (h : threshold < c.length) :
    (insertAsset assetMode mimeOf asset (some c) threshold).storageMode = "external" ∧
    (insertAsset assetMode mimeOf asset (some c) threshold).content = none ∧
    (insertAsset assetMode mimeOf asset (some c) threshold).storageUrl =
      some (jsOr asset.blobURL asset.path) := by
  have hl : ¬ c.length ≤ threshold := by omega
  by_cases hm : assetMode = "inline" <;> simp [insertAsset, jsOr, hm, hl]

theorem insertAsset_over_threshold_external_witness :
    (insertAsset "inline" (fun _ => "application/octet-stream")
        ⟨"abc", "img.png", "img.png", "image", "", 2⟩ (some [0, 0]) 1).storageMode
      = "external" ∧
    (insertAsset "inline" (fun _ => "application/octet-stream")
        ⟨"abc", "img.png", "img.png", "image", "", 2⟩ (some [0, 0]) 1).content
      = none ∧
    (insertAsset "inline" (fun _ => "application/octet-stream")
        ⟨"abc", "img.png", "img.png", "image", "", 2⟩ (some [0, 0]) 1).storageUrl
      = some (jsOr "" "img.png") :=
  insertAsset_over_threshold_external "inline" (fun _ => "application/octet-stream")
    ⟨"abc", "img.png", "img.png", "image", "", 2⟩ [0, 0] 1 (by decide)

/-- C4: `insertAsset` stores inline (storage_mode `inline`, content column set
to the supplied bytes, storage_url NULL) exactly when the configured asset
mode is `inline` AND content is supplied AND its length is at or below the
threshold; in every other case it records storage_mode `external` with the
storage URL `asset.blobURL || asset.path` and NULL inline content. The
decision is recorded once, in the inserted row's storage_mode. -/
theorem insertAsset_inline_decision (assetMode : String)
    (mimeOf : String → String) (asset : Asset) (content : Option (List Nat))
    (threshold : Nat) :
    ((insertAsset assetMode mimeOf asset content threshold).storageMode = "inline" ∧
      (insertAsset assetMode mimeOf asset content threshold).content = content ∧
      (insertAsset assetMode mimeOf asset content threshold).storageUrl = none
     ↔ assetMode = "inline" ∧ ∃ c, content = some c ∧ c.length ≤ threshold) ∧
    (¬ (assetMode = "inline" ∧ ∃ c, content = some c ∧ c.length ≤ threshold) →
      (insertAsset assetMode mimeOf asset content threshold).storageMode = "external" ∧
      (insertAsset assetMode mimeOf asset content threshold).content = none ∧
      (insertAsset assetMode mimeOf asset content threshold).storageUrl =
        some (jsOr asset.blobURL asset.path)) := by
  cases content with
  | none => by_cases hm : assetMode = "inline" <;> simp [insertAsset, jsOr, hm]
  | some c =>
    by_cases hm : assetMode = "inline"
    · by_cases hl : c.length ≤ threshold
      · simp [insertAsset, jsOr, hm, hl]
      · simp [insertAsset, jsOr, hm, hl]
    · simp [insertAsset, jsOr, hm]

theorem insertAsset_inline_decision_witness :
    ((insertAsset "inline" (fun _ => "text/plain")
        ⟨"s1", "a.txt", "a.txt", "document", "", 3⟩ (some [1, 2, 3]) 10).storageMode
        = "inline" ∧
      (insertAsset "inline" (fun _ => "text/plain")
        ⟨"s1", "a.txt", "a.txt", "document", "", 3⟩ (some [1, 2, 3]) 10).content
        = some [1, 2, 3] ∧
      (insertAsset "inline" (fun _ => "text/plain")
        ⟨"s1", "a.txt", "a.txt", "document", "", 3⟩ (some [1, 2, 3]) 10).storageUrl
        = none
     ↔ ("inline" : String) = "inline" ∧
        ∃ c, some [1, 2, 3] = some c ∧ c.length ≤ 10) ∧
    (¬ (("inline" : String) = "inline" ∧
        ∃ c, some [1, 2, 3] = some c ∧ c.length ≤ 10) →
      (insertAsset "inline" (fun _ => "text/plain")
        ⟨"s1", "a.txt", "a.txt", "document", "", 3⟩ (some [1, 2, 3]) 10).storageMode
        = "external" ∧
      (insertAsset "inline" (fun _ => "text/plain")
        ⟨"s1", "a.txt", "a.txt", "document", "", 3⟩ (some [1, 2, 3]) 10).content
        = none ∧
      (insertAsset "inline" (fun _ => "text/plain")
        ⟨"s1", "a.txt", "a.txt", "document", "", 3⟩ (some [1, 2, 3]) 10).storageUrl
        = some (jsOr "" "a.txt")) :=
  insertAsset_inline_decision "inline" (fun _ => "text/plain")
    ⟨"s1", "a.txt", "a.txt", "document", "", 3⟩ (some [1, 2, 3]) 10

/-- C6 (code bug): `updateAsset` with an empty set of updated fields and no
content still issues an UPDATE query — the source pushes
`updated_at = CURRENT_TIMESTAMP` onto `setClauses` BEFORE the
`setClauses.length === 0` early return, so that guard is unreachable and the
issued query rewrites the row's `updated_at` timestamp. -/
theorem updateAsset_empty_updates_issues_query :
    updateAsset ⟨"", "", none, ""⟩ none =
      some ([SetClause.updatedAtNow], []) := rfl

/-- C9: `closeDuckDB` never raises, is a no-op when nothing is initialized,
attempts each teardown step independently of the others' failures (the
attempted steps do not depend on the failure environment at all), and always
leaves the post-state with the instance, connection and worker unset and the
extension flag reset, so `isDuckDBReady` and `hasActiveConnection` return
false afterwards. -/
theorem closeDuckDB_spec (s : EngineState) (env : CloseEnv) :
    (closeDuckDB s env).state =
      { db := false, conn := false, worker := false,
        isInitializing := s.isInitializing, extensionsLoaded := false } ∧
    isDuckDBReady (closeDuckDB s env).state = false ∧
    hasActiveConnection (closeDuckDB s env).state = false ∧
    (∀ env2 : CloseEnv, (closeDuckDB s env2).state = (closeDuckDB s env).state ∧
      (closeDuckDB s env2).steps = (closeDuckDB s env).steps) ∧
    (s.conn = true → TeardownStep.closeConn ∈ (closeDuckDB s env).steps) ∧
    (s.db = true → TeardownStep.terminateDb ∈ (closeDuckDB s env).steps) ∧
    (s.worker = true → TeardownStep.terminateWorker ∈ (closeDuckDB s env).steps) ∧
    (s.conn = false → s.db = false → s.worker = false →
      (closeDuckDB s env).steps = [] ∧
      (s.extensionsLoaded = false → (closeDuckDB s env).state = s)) := by
  obtain ⟨d, c, w, ii, el⟩ := s
  cases d <;> cases c <;> cases w <;> cases el <;>
    simp [closeDuckDB, isDuckDBReady, hasActiveConnection]

theorem closeDuckDB_spec_witness :
    (closeDuckDB ⟨true, true, true, false, true⟩ ⟨true, true, true⟩).state =
      { db := false, conn := false, worker := false,
        isInitializing := false, extensionsLoaded := false } ∧
    isDuckDBReady (closeDuckDB ⟨true, true, true, false, true⟩
      ⟨true, true, true⟩).state = false ∧
    hasActiveConnection (closeDuckDB ⟨true, true, true, false, true⟩
      ⟨true, true, true⟩).state = false ∧
    (∀ env2 : CloseEnv,
      (closeDuckDB ⟨true, true, true, false, true⟩ env2).state =
        (closeDuckDB ⟨true, true, true, false, true⟩ ⟨true, true, true⟩).state ∧
      (closeDuckDB ⟨true, true, true, false, true⟩ env2).steps =
        (closeDuckDB ⟨true, true, true, false, true⟩ ⟨true, true, true⟩).steps) ∧
    (true = true → TeardownStep.closeConn ∈
      (closeDuckDB ⟨true, true, true, false, true⟩ ⟨true, true, true⟩).steps) ∧
    (true = true → TeardownStep.terminateDb ∈
      (closeDuckDB ⟨true, true, true, false, true⟩ ⟨true, true, true⟩).steps) ∧
    (true = true → TeardownStep.terminateWorker ∈
      (closeDuckDB ⟨true, true, true, false, true⟩ ⟨true, true, true⟩).steps) ∧
    (true = false → true = false → true = false →
      (closeDuckDB ⟨true, true, true, false, true⟩ ⟨true, true, true⟩).steps = [] ∧
      (true = false → (closeDuckDB ⟨true, true, true, false, true⟩
        ⟨true, true, true⟩).state = ⟨true, true, true, false, true⟩)) :=
  closeDuckDB_spec ⟨true, true, true, false, true⟩ ⟨true, true, true⟩

/-- C5: the commit identifier built by `commitChanges` is a deterministic
function of the two exported Parquet buffers in fixed order — it equals
`generateSha` of the entries bytes followed by the assets bytes, and two
commits (with possibly different change lists) producing identical pairs of
buffers yield the same hash. -/
theorem commitChanges_sha_deterministic (changes1 changes2 : List FileChangeMeta)
    (e1 a1 e2 a2 : List Nat) (he : e1 = e2) (ha : a1 = a2) :
    (buildCommitResult changes1 e1 a1).sha = generateSha (e1 ++ a1) ∧
    (buildCommitResult changes1 e1 a1).sha = (buildCommitResult changes2 e2 a2).sha := by
  subst he
  subst ha
  exact ⟨rfl, rfl⟩

theorem commitChanges_sha_deterministic_witness :
    (buildCommitResult [] [1] [2]).sha = generateSha ([1] ++ [2]) ∧
    (buildCommitResult [] [1] [2]).sha =
      (buildCommitResult [⟨"a.md", none, none⟩] [1] [2]).sha :=
  commitChanges_sha_deterministic [] [⟨"a.md", none, none⟩] [1] [2] [1] [2] rfl rfl

/-! ### C8: schema existence probe -/

lemma length_filter_eq_two_iff {α : Type} [DecidableEq α] (pb : α → Bool)
    (x y : α) (hxy : x ≠ y) (hp : ∀ t, pb t = true ↔ (t = x ∨ t = y))
    (l : List α) (hnd : l.Nodup) :
    ((l.filter pb).length = 2) ↔ (x ∈ l ∧ y ∈ l) := by
  have hfsub : (l.filter pb).toFinset ⊆ {x, y} := by
    intro t ht
    simp only [List.mem_toFinset, List.mem_filter] at ht
    have := (hp t).mp ht.2
    simp [this]
  have hndf : (l.filter pb).Nodup := hnd.filter pb
  have hcard : (l.filter pb).toFinset.card = (l.filter pb).length :=
    List.toFinset_card_of_nodup hndf
  have hxy2 : ({x, y} : Finset α).card = 2 := Finset.card_pair hxy
  constructor
  · intro hlen
    have heq : (l.filter pb).toFinset = {x, y} :=
      Finset.eq_of_subset_of_card_le hfsub (by rw [hcard, hlen, hxy2])
    have hx : x ∈ (l.filter pb).toFinset := by rw [heq]; simp
    have hy : y ∈ (l.filter pb).toFinset := by rw [heq]; simp
    simp only [List.mem_toFinset, List.mem_filter] at hx hy
    exact ⟨hx.1, hy.1⟩
  · rintro ⟨hx, hy⟩
    have hx2 : x ∈ (l.filter pb).toFinset := by
      simp only [List.mem_toFinset, List.mem_filter]
      exact ⟨hx, (hp x).mpr (Or.inl rfl)⟩
    have hy2 : y ∈ (l.filter pb).toFinset := by
      simp only [List.mem_toFinset, List.mem_filter]
      exact ⟨hy, (hp y).mpr (Or.inr rfl)⟩
    have hsup : ({x, y} : Finset α) ⊆ (l.filter pb).toFinset := by
      intro t ht
      rcases Finset.mem_insert.mp ht with h | h
      · rw [h]; exact hx2
      · rw [Finset.mem_singleton.mp h]; exact hy2
    have heq : (l.filter pb).toFinset = {x, y} :=
      Finset.Subset.antisymm hfsub hsup
    rw [← hcard, heq, hxy2]

/-- C8: `schemaExists` returns true exactly when the `cms` schema row exists
and both the `entries` and `assets` tables are present under it (assuming a
well-formed catalog, i.e. unique (schema, table) rows); and it never raises —
whenever either information_schema query fails, the failure is converted into
the return value `false`. -/
theorem schemaExists_spec (c : Catalog) (hnd : c.tables.Nodup) :
    (c.failSchemata = false → c.failTables = false →
      (schemaExists c = true ↔ "cms" ∈ c.schemata ∧
        ("cms", "entries") ∈ c.tables ∧ ("cms", "assets") ∈ c.tables)) ∧
    ((c.failSchemata = true ∨ c.failTables = true) → schemaExists c = false) := by
  constructor
  · intro h1 h2
    unfold schemaExists
    simp only [h1, h2, Bool.false_eq_true, if_false]
    by_cases hs : "cms" ∈ c.schemata
    · have hmem : "cms" ∈ c.schemata.filter (fun n => n = "cms") := by
        simp [List.mem_filter, hs]
      have hlen : (c.schemata.filter (fun n => n = "cms")).length ≠ 0 := by
        intro hcon
        rw [List.length_eq_zero] at hcon
        rw [hcon] at hmem
        simp at hmem
      rw [if_neg hlen]
      have hiff := length_filter_eq_two_iff
        (fun t : String × String => decide (t.1 = "cms" ∧ (t.2 = "entries" ∨ t.2 = "assets")))
        ("cms", "entries") ("cms", "assets") (by decide)
        (fun t => by
          obtain ⟨a, b⟩ := t
          simp [Prod.ext_iff]
          tauto)
        c.tables hnd
      rw [decide_eq_true_eq, hiff]
      simp [hs]
    · have hnil : c.schemata.filter (fun n => n = "cms") = [] := by
        rw [List.filter_eq_nil]
        intro a ha hcon
        rw [decide_eq_true_eq] at hcon
        exact hs (hcon ▸ ha)
      rw [if_pos (by rw [hnil]; rfl)]
      simp [hs]
  · intro h
    unfold schemaExists
    rcases h with h | h
    · rw [h]
      simp
    · by_cases hfs : c.failSchemata <;> simp [hfs, h]

theorem schemaExists_spec_witness :
    (false = false → false = false →
      (schemaExists ⟨["cms"], [("cms", "entries"), ("cms", "assets")], false, false⟩
          = true ↔
        "cms" ∈ ["cms"] ∧
        ("cms", "entries") ∈ [("cms", "entries"), ("cms", "assets")] ∧
        ("cms", "assets") ∈ [("cms", "entries"), ("cms", "assets")])) ∧
    ((false = true ∨ false = true) →
      schemaExists ⟨["cms"], [("cms", "entries"), ("cms", "assets")], false, false⟩
        = false) :=
  schemaExists_spec
    ⟨["cms"], [("cms", "entries"), ("cms", "assets")], false, false⟩ (by decide)

/-! ### C1, C2, C10: presigned-URL cache discipline -/

/-- C1: from a configured, authenticated state whose cache does not hold
`path`, two GET calls for the same path within the expiry-minus-buffer window
(`t2 + 60s < cached expiry`) perform exactly one signing request in total —
the second call returns the cached URL; two PUT calls for the same path
perform one signing request each; and PUT and DELETE results are never stored
in the URL cache (the whole credential state is left unchanged). -/
theorem getPresignedUrl_cache_discipline
    (pu pv tk path url u2 : String) (cache0 : List (String × String))
    (exp0 eps eps2 t1 t1' t2 t2' : Nat) (reply2 : FetchReply PresignResponse)
    (hpath : path ≠ "") (hurl : url ≠ "")
    (hmiss : lookupUrl path cache0 = none)
    (hwindow : t2 + 60000 < t1' + eps * 1000) :
    (let s0 : CredState := ⟨some pu, some pv, some tk, cache0, exp0⟩
     let g1 := getPresignedUrl s0 t1 t1' path "GET"
       (.response 200 "" (PresignResponse.mk url eps))
     let g2 := getPresignedUrl g1.state t2 t2' path "GET" reply2
     g1.fetches + g2.fetches = 1 ∧ g2.result = .ok url) ∧
    (let s0 : CredState := ⟨some pu, some pv, some tk, cache0, exp0⟩
     let p1 := getPresignedUrl s0 t1 t1' path "PUT"
       (.response 200 "" (PresignResponse.mk url eps))
     let p2 := getPresignedUrl p1.state t2 t2' path "PUT"
       (.response 200 "" (PresignResponse.mk u2 eps2))
     p1.fetches + p2.fetches = 2 ∧ p1.state = s0 ∧ p2.state = s0) ∧
    (let s0 : CredState := ⟨some pu, some pv, some tk, cache0, exp0⟩
     let d1 := getPresignedUrl s0 t1 t1' path "DELETE"
       (.response 200 "" (PresignResponse.mk url eps))
     d1.state = s0 ∧ d1.fetches = 1) := by
  refine ⟨?_, ?_, ?_⟩
  · dsimp only
    have hg1 := getPresignedUrl_get_miss
      ⟨some pu, some pv, some tk, cache0, exp0⟩ pu tk t1 t1' path url "" eps
      rfl rfl hpath
      (cacheHit_none_of_lookup_none _ t1 path hmiss)
    rw [hg1]
    dsimp only
    have hvalid : isCacheValid
        ⟨some pu, some pv, some tk, setKey cache0 path url, t1' + eps * 1000⟩ t2
        = true := by
      simp only [isCacheValid, REFRESH_BUFFER_MS, decide_eq_true_eq]
      omega
    have hg2 := getPresignedUrl_get_hit
      ⟨some pu, some pv, some tk, setKey cache0 path url, t1' + eps * 1000⟩
      t2 t2' path url reply2 hvalid (lookupUrl_setKey_self cache0 path url)
      hurl hpath
    rw [hg2]
    exact ⟨rfl, rfl⟩
  · dsimp only
    have hput : ("PUT" : String) ≠ "GET" := by decide
    have hp1 := getPresignedUrl_write_op
      ⟨some pu, some pv, some tk, cache0, exp0⟩ pu tk t1 t1' path "PUT" url "" eps
      rfl rfl hpath hput
    rw [hp1]
    dsimp only
    have hp2 := getPresignedUrl_write_op
      ⟨some pu, some pv, some tk, cache0, exp0⟩ pu tk t2 t2' path "PUT" u2 "" eps2
      rfl rfl hpath hput
    rw [hp2]
    exact ⟨rfl, rfl, rfl⟩
  · dsimp only
    have hdel : ("DELETE" : String) ≠ "GET" := by decide
    have hd1 := getPresignedUrl_write_op
      ⟨some pu, some pv, some tk, cache0, exp0⟩ pu tk t1 t1' path "DELETE" url "" eps
      rfl rfl hpath hdel
    rw [hd1]
    exact ⟨rfl, rfl⟩

theorem getPresignedUrl_cache_discipline_witness :
    (let s0 : CredState := ⟨some "p", some "s3", some "t", [], 0⟩
     let g1 := getPresignedUrl s0 0 0 "a" "GET"
       (.response 200 "" (PresignResponse.mk "u" 900))
     let g2 := getPresignedUrl g1.state 1000 1000 "a" "GET"
       (.response 200 "" (PresignResponse.mk "u" 900))
     g1.fetches + g2.fetches = 1 ∧ g2.result = .ok "u") ∧
    (let s0 : CredState := ⟨some "p", some "s3", some "t", [], 0⟩
     let p1 := getPresignedUrl s0 0 0 "a" "PUT"
       (.response 200 "" (PresignResponse.mk "u" 900))
     let p2 := getPresignedUrl p1.state 1000 1000 "a" "PUT"
       (.response 200 "" (PresignResponse.mk "u2" 900))
     p1.fetches + p2.fetches = 2 ∧ p1.state = s0 ∧ p2.state = s0) ∧
    (let s0 : CredState := ⟨some "p", some "s3", some "t", [], 0⟩
     let d1 := getPresignedUrl s0 0 0 "a" "DELETE"
       (.response 200 "" (PresignResponse.mk "u" 900))
     d1.state = s0 ∧ d1.fetches = 1) :=
  getPresignedUrl_cache_discipline "p" "s3" "t" "a" "u" "u2" [] 0 900 900 0 0
    1000 1000 (.response 200 "" (PresignResponse.mk "u" 900))
    (by decide) (by decide) rfl (by decide)

/-- C2: when a signing request actually reaches the proxy (configured,
authenticated, not served from cache) and the proxy answers 401 or 403, both
`getPresignedUrl` and `fetchPresignedUrls` leave the session token null and
the URL cache empty (size 0, expiry 0) and return the authentication error;
`getCacheState` afterwards reports size 0. -/
theorem proxy_auth_denial_fail_closed
    (pu pv tk path op errText : String) (cache0 : List (String × String))
    (exp0 t1 t1' t2 t2' now1 now2 st : Nat) (paths : List String)
    (dummyP : PresignResponse) (dummyB : PresignBatchResponse)
    (hst : st = 401 ∨ st = 403) (hpath : path ≠ "")
    (hmiss : (if op = "GET" then
        cacheHit ⟨some pu, some pv, some tk, cache0, exp0⟩ t1 path
      else none) = none)
    (hne : paths.length ≠ 0)
    (hvp : (paths.filter (fun p => p ≠ "")).length ≠ 0)
    (hfetch : (if isCacheValid ⟨some pu, some pv, some tk, cache0, exp0⟩ t2 then
        (paths.filter (fun p => p ≠ "")).filter
          (fun p => ¬ truthyUrl ⟨some pu, some pv, some tk, cache0, exp0⟩ p)
      else paths.filter (fun p => p ≠ "")).length ≠ 0) :
    (let r := getPresignedUrl ⟨some pu, some pv, some tk, cache0, exp0⟩
       t1 t1' path op (.response st errText dummyP)
     r.state.sessionToken = none ∧ r.state.cacheUrls = [] ∧
     r.state.cacheExpiry = 0 ∧ r.result = .error (.authFailed errText) ∧
     (getCacheState r.state now1).size = 0) ∧
    (let rb := fetchPresignedUrls ⟨some pu, some pv, some tk, cache0, exp0⟩
       t2 t2' paths (.response st errText dummyB)
     rb.state.sessionToken = none ∧ rb.state.cacheUrls = [] ∧
     rb.state.cacheExpiry = 0 ∧ rb.result = .error (.authFailed errText) ∧
     (getCacheState rb.state now2).size = 0) := by
  constructor
  · dsimp only
    rw [getPresignedUrl_auth_denied ⟨some pu, some pv, some tk, cache0, exp0⟩
      pu tk t1 t1' path op errText st dummyP rfl rfl hpath hmiss hst]
    simp [clearCredentials, getCacheState]
  · dsimp only
    rw [fetchPresignedUrls_auth_denied ⟨some pu, some pv, some tk, cache0, exp0⟩
      pu tk t2 t2' paths errText st dummyB rfl rfl hne hvp hfetch hst]
    simp [clearCredentials, getCacheState]

theorem proxy_auth_denial_fail_closed_witness :
    (let r := getPresignedUrl ⟨some "p", some "s3", some "t", [("x", "u")], 0⟩
       0 0 "a" "GET" (.response 401 "denied" (PresignResponse.mk "" 0))
     r.state.sessionToken = none ∧ r.state.cacheUrls = [] ∧
     r.state.cacheExpiry = 0 ∧ r.result = .error (.authFailed "denied") ∧
     (getCacheState r.state 5).size = 0) ∧
    (let rb := fetchPresignedUrls ⟨some "p", some "s3", some "t", [("x", "u")], 0⟩
       0 0 ["a"] (.response 401 "denied" (PresignBatchResponse.mk [] 0))
     rb.state.sessionToken = none ∧ rb.state.cacheUrls = [] ∧
     rb.state.cacheExpiry = 0 ∧ rb.result = .error (.authFailed "denied") ∧
     (getCacheState rb.state 5).size = 0) :=
  proxy_auth_denial_fail_closed "p" "s3" "t" "a" "GET" "denied" [("x", "u")]
    0 0 0 0 0 5 5 401 ["a"] (PresignResponse.mk "" 0)
    (PresignBatchResponse.mk [] 0)
    (Or.inl rfl) (by decide) (by decide) (by decide) (by decide) (by decide)

/-- C10: the cache keeps one shared expiry for all paths. After a GET presign
of `pathA` (with its own lifetime `epsA`) and a later GET presign of `pathB`
(lifetime `epsB`), the shared expiry is overwritten to the latest response's
`t2' + epsB * 1000` while `pathA`'s URL stays in the merged map; a third call
for `pathA` at a time `t3` past `pathA`'s own `t1' + epsA * 1000` but within
the latest shared window still returns `pathA`'s cached URL with no signing
request. -/
theorem shared_expiry_staleness
    (pu pv tk pathA pathB urlA urlB : String)
    (epsA epsB t1 t1' t2 t2' t3 t3' : Nat)
    (hA : pathA ≠ "") (hB : pathB ≠ "") (hAB : pathA ≠ pathB)
    (huA : urlA ≠ "") (huB : urlB ≠ "")
    (hstale : t1' + epsA * 1000 ≤ t3)
    (hfresh : t3 + 60000 < t2' + epsB * 1000) :
    let s0 : CredState := ⟨some pu, some pv, some tk, [], 0⟩
    let r1 := getPresignedUrl s0 t1 t1' pathA "GET"
      (.response 200 "" (PresignResponse.mk urlA epsA))
    let r2 := getPresignedUrl r1.state t2 t2' pathB "GET"
      (.response 200 "" (PresignResponse.mk urlB epsB))
    let r3 := getPresignedUrl r2.state t3 t3' pathA "GET"
      (.response 200 "" (PresignResponse.mk urlA epsA))
    r2.state.cacheExpiry = t2' + epsB * 1000 ∧
    lookupUrl pathA r2.state.cacheUrls = some urlA ∧
    r3.fetches = 0 ∧ r3.result = .ok urlA := by
  dsimp only
  have hr1 := getPresignedUrl_get_miss
    ⟨some pu, some pv, some tk, [], 0⟩ pu tk t1 t1' pathA urlA "" epsA
    rfl rfl hA (cacheHit_none_of_lookup_none _ t1 pathA rfl)
  rw [hr1]
  dsimp only
  have hlookB : lookupUrl pathB (setKey [] pathA urlA) = none := by
    simp [setKey, hAB]
  have hr2 := getPresignedUrl_get_miss
    ⟨some pu, some pv, some tk, setKey [] pathA urlA, t1' + epsA * 1000⟩
    pu tk t2 t2' pathB urlB "" epsB rfl rfl hB
    (cacheHit_none_of_lookup_none _ t2 pathB hlookB)
  rw [hr2]
  dsimp only
  have hlookA : lookupUrl pathA (setKey (setKey [] pathA urlA) pathB urlB)
      = some urlA := by
    rw [lookupUrl_setKey_other _ pathA pathB urlB hAB, lookupUrl_setKey_self]
  have hvalid : isCacheValid
      ⟨some pu, some pv, some tk, setKey (setKey [] pathA urlA) pathB urlB,
        t2' + epsB * 1000⟩ t3 = true := by
    simp only [isCacheValid, REFRESH_BUFFER_MS, decide_eq_true_eq]
    omega
  have hr3 := getPresignedUrl_get_hit
    ⟨some pu, some pv, some tk, setKey (setKey [] pathA urlA) pathB urlB,
      t2' + epsB * 1000⟩
    t3 t3' pathA urlA (.response 200 "" (PresignResponse.mk urlA epsA))
    hvalid hlookA huA hA
  rw [hr3]
  exact ⟨rfl, hlookA, rfl, rfl⟩

theorem shared_expiry_staleness_witness :
    let s0 : CredState := ⟨some "p", some "s3", some "t", [], 0⟩
    let r1 := getPresignedUrl s0 0 0 "a" "GET"
      (.response 200 "" (PresignResponse.mk "ua" 100))
    let r2 := getPresignedUrl r1.state 200000 200000 "b" "GET"
      (.response 200 "" (PresignResponse.mk "ub" 1000))
    let r3 := getPresignedUrl r2.state 300000 300000 "a" "GET"
      (.response 200 "" (PresignResponse.mk "ua" 100))
    r2.state.cacheExpiry = 200000 + 1000 * 1000 ∧
    lookupUrl "a" r2.state.cacheUrls = some "ua" ∧
    r3.fetches = 0 ∧ r3.result = .ok "ua" :=
  shared_expiry_staleness "p" "s3" "t" "a" "b" "ua" "ub" 100 1000 0 0
    200000 200000 300000 300000
    (by decide) (by decide) (by decide) (by decide) (by decide)
    (by decide) (by decide)

end SveltiaDuckDB
